import Mathlib

/-
  Verification of the CV-review request handler (src/app/page.tsx, route section).

  The handler is embedded shallowly: JSON values are an inductive type, the
  builtin JSON.parse is modelled by a fuel-based recursive-descent parser
  following the JSON grammar, the JS String() and Number() coercions are
  modelled on JSON values, and the route handler POST is translated stage by
  stage (input validation, credentials check, file extraction, prompt build,
  model invocation outcome, dual-attempt parse, sanitization).
  JS numbers are modelled as exact rationals (JSON literals denote finite
  decimals); the double-rounding of the engine is not modelled.
-/

namespace CVSC

/-- JSON values as produced by the builtin JSON.parse. Object fields are kept
in source order; duplicate keys are resolved at lookup (last occurrence wins,
as in JS object construction). -/
inductive JsonValue where
  | null
  | bool (b : Bool)
  | num (q : ℚ)
  | str (s : String)
  | arr (elems : List JsonValue)
  | obj (fields : List (String × JsonValue))

/-- The Review output contract of the route (type Review in the source). -/
structure Review where
  strengths : List String
  weaknesses : List String
  suggestions : List String
  score : ℤ
deriving DecidableEq

/-- An HTTP response of the route: NextResponse.json(result) (status 200) or
NextResponse.json(\x7b error \x7d, \x7b status \x7d). -/
inductive ApiResponse where
  | ok (r : Review)
  | err (message : String) (status : Nat)
deriving DecidableEq

/-- HTTP status of a response (NextResponse.json defaults to 200). -/
def ApiResponse.status : ApiResponse → Nat
  | .ok _ => 200
  | .err _ s => s

/-- An uploaded file as the handler sees it: the declared MIME type, the
outcome of the format-specific extraction library (pdf-parse or mammoth) on
its bytes, and the UTF-8 decoding of its bytes (buffer.toString of utf-8). -/
structure UploadedFile where
  mimeType : String
  libExtract : Except Unit String
  utf8Content : String

/-- The two form fields of the request: formData.get of text (string or null)
and formData.get of file (File or null). -/
structure Request where
  text : Option String
  file : Option UploadedFile

/-- Server environment: process.env.OPENAI_API_KEY (absent or a string). -/
structure Env where
  apiKey : Option String

/-- Truthiness test of the key: the source guards on the negation of
process.env.OPENAI_API_KEY, which holds when the variable is unset or empty. -/
def Env.keyFalsy (e : Env) : Bool :=
  match e.apiKey with
  | none => true
  | some k => k.isEmpty

/-- Outcome of the single openai.chat.completions.create call: the call threw
(network error, timeout, API error), or it returned, with
choices[0].message.content either a string or absent/null. -/
inductive ModelOutcome where
  | threw (message : String)
  | completion (content : Option String)

/-- JS truthiness of the null coalescing on the text field: the source guards
on the negation of text, true when text is null or the empty string. -/
def textFalsy : Option String → Bool
  | none => true
  | some t => t.isEmpty

/-- Whitespace removed by the JS String.prototype.trim (the common code
points; trim also removes other Unicode space separators, not needed here). -/
def jsWsChar (c : Char) : Bool :=
  c = ' ' || c = '\t' || c = '\n' || c = '\r' || c = '\x0b' || c = '\x0c' || c = '\xa0'

/-- Model of String.prototype.trim. -/
def jsTrim (s : String) : String :=
  String.mk (((s.toList.dropWhile jsWsChar).reverse.dropWhile jsWsChar).reverse)

/-- Insignificant whitespace of the JSON grammar. -/
def jsonWs (c : Char) : Bool :=
  c = ' ' || c = '\t' || c = '\n' || c = '\r'

/-- Skip JSON whitespace. -/
def skipWs : List Char → List Char
  | [] => []
  | c :: rest => if jsonWs c then skipWs rest else c :: rest

/-- Scan a maximal run of decimal digits, returning value, digit count and
the remaining input. -/
def digitsAux : List Char → Nat → Nat → Nat × Nat × List Char
  | [], acc, n => (acc, n, [])
  | c :: rest, acc, n =>
    if c.isDigit then digitsAux rest (acc * 10 + (c.toNat - 48)) (n + 1)
    else (acc, n, c :: rest)

/-- Value of a hexadecimal digit. -/
def hexVal (c : Char) : Option Nat :=
  if '0' ≤ c ∧ c ≤ '9' then some (c.toNat - 48)
  else if 'a' ≤ c ∧ c ≤ 'f' then some (c.toNat - 87)
  else if 'A' ≤ c ∧ c ≤ 'F' then some (c.toNat - 55)
  else none

/-- Prepend a decoded character to a string-parse result. -/
def consChar (ch : Char) : Option (List Char × List Char) → Option (List Char × List Char)
  | none => none
  | some (cs, rest) => some (ch :: cs, rest)

/-- Parse the body of a JSON string after the opening quote, handling the
escape sequences of the grammar and rejecting unescaped control characters.
Surrogate pairs are not recombined (no claim depends on astral characters). -/
def parseStringChars : Nat → List Char → Option (List Char × List Char)
  | 0, _ => none
  | _ + 1, [] => none
  | fuel + 1, c :: rest =>
    if c = '"' then some ([], rest)
    else if c = '\\' then
      match rest with
      | [] => none
      | e :: rest2 =>
        if e = '"' then consChar '"' (parseStringChars fuel rest2)
        else if e = '\\' then consChar '\\' (parseStringChars fuel rest2)
        else if e = '/' then consChar '/' (parseStringChars fuel rest2)
        else if e = 'b' then consChar '\x08' (parseStringChars fuel rest2)
        else if e = 'f' then consChar '\x0c' (parseStringChars fuel rest2)
        else if e = 'n' then consChar '\n' (parseStringChars fuel rest2)
        else if e = 'r' then consChar '\r' (parseStringChars fuel rest2)
        else if e = 't' then consChar '\t' (parseStringChars fuel rest2)
        else if e = 'u' then
          match rest2 with
          | h1 :: h2 :: h3 :: h4 :: rest3 =>
            match hexVal h1, hexVal h2, hexVal h3, hexVal h4 with
            | some a, some b, some c2, some d =>
              consChar (Char.ofNat (((a * 16 + b) * 16 + c2) * 16 + d))
                (parseStringChars fuel rest3)
            | _, _, _, _ => none
          | _ => none
        else none
    else if c.toNat < 32 then none
    else consChar c (parseStringChars fuel rest)

/-- Parse a JSON number (sign, integer part without leading zeros, optional
fraction, optional exponent), as an exact rational. -/
def parseNumber (s : List Char) : Option (ℚ × List Char) :=
  let signSplit : Bool × List Char :=
    match s with
    | '-' :: r => (true, r)
    | _ => (false, s)
  let neg := signSplit.1
  let s1 := signSplit.2
  let ipRes := digitsAux s1 0 0
  let ip := ipRes.1
  let ipLen := ipRes.2.1
  let s2 := ipRes.2.2
  if ipLen = 0 then none
  else if 1 < ipLen ∧ s1.headD 'x' = '0' then none
  else
    let fracStep : Option (Nat × Nat × List Char) :=
      match s2 with
      | '.' :: r =>
        let fRes := digitsAux r 0 0
        if fRes.2.1 = 0 then none else some fRes
      | _ => some (0, 0, s2)
    match fracStep with
    | none => none
    | some (f, fl, s3) =>
      let expStep : Option (ℤ × List Char) :=
        match s3 with
        | c :: r =>
          if c = 'e' ∨ c = 'E' then
            let signSplit2 : ℤ × List Char :=
              match r with
              | '+' :: r3 => (1, r3)
              | '-' :: r3 => (-1, r3)
              | _ => (1, r)
            let eRes := digitsAux signSplit2.2 0 0
            if eRes.2.1 = 0 then none
            else some (signSplit2.1 * (eRes.1 : ℤ), eRes.2.2)
          else some (0, c :: r)
        | [] => some (0, [])
      match expStep with
      | none => none
      | some (e, s4) =>
        let mant : ℤ := (if neg then -1 else 1) * ((ip : ℤ) * 10 ^ fl + (f : ℤ))
        some ((mant : ℚ) * (10 : ℚ) ^ (e - (fl : ℤ)), s4)

/-- Match a literal keyword (the tail of null, true, false). -/
def matchLit (lit : String) (s : List Char) (v : JsonValue) : Option (JsonValue × List Char) :=
  let l := lit.toList
  if s.take l.length = l then some (v, s.drop l.length) else none

mutual

/-- Parse one JSON value (fuel-bounded recursive descent over the grammar). -/
def parseValue : Nat → List Char → Option (JsonValue × List Char)
  | 0, _ => none
  | fuel + 1, s =>
    match skipWs s with
    | [] => none
    | c :: rest =>
      if c = 'n' then matchLit "ull" rest .null
      else if c = 't' then matchLit "rue" rest (.bool true)
      else if c = 'f' then matchLit "alse" rest (.bool false)
      else if c = '"' then
        match parseStringChars (rest.length + 1) rest with
        | none => none
        | some (cs, r2) => some (.str (String.mk cs), r2)
      else if c = '\x5b' then
        match skipWs rest with
        | ']' :: r2 => some (.arr [], r2)
        | r2 =>
          match parseElems fuel r2 with
          | none => none
          | some (vs, r3) => some (.arr vs, r3)
      else if c = '\x7b' then
        match skipWs rest with
        | '\x7d' :: r2 => some (.obj [], r2)
        | r2 =>
          match parseMembers fuel r2 with
          | none => none
          | some (fs, r3) => some (.obj fs, r3)
      else parseNumber (c :: rest) |>.map (fun p => (.num p.1, p.2))

/-- Parse the comma-separated elements of a non-empty array, up to the
closing bracket. -/
def parseElems : Nat → List Char → Option (List JsonValue × List Char)
  | 0, _ => none
  | fuel + 1, s =>
    match parseValue fuel s with
    | none => none
    | some (v, rest) =>
      match skipWs rest with
      | ',' :: r2 =>
        match parseElems fuel r2 with
        | none => none
        | some (vs, r3) => some (v :: vs, r3)
      | ']' :: r2 => some ([v], r2)
      | _ => none

/-- Parse the members of a non-empty object, up to the closing brace. -/
def parseMembers : Nat → List Char → Option (List (String × JsonValue) × List Char)
  | 0, _ => none
  | fuel + 1, s =>
    match skipWs s with
    | '"' :: rest =>
      match parseStringChars (rest.length + 1) rest with
      | none => none
      | some (key, r2) =>
        match skipWs r2 with
        | ':' :: r3 =>
          match parseValue fuel r3 with
          | none => none
          | some (v, r4) =>
            match skipWs r4 with
            | ',' :: r5 =>
              match parseMembers fuel r5 with
              | none => none
              | some (fs, r6) => some ((String.mk key, v) :: fs, r6)
            | '\x7d' :: r5 => some ([(String.mk key, v)], r5)
            | _ => none
        | _ => none
    | _ => none

end

/-- Model of the builtin JSON.parse: parse one value and require only
whitespace to remain; none models a thrown SyntaxError. -/
def parseJSON (s : String) : Option JsonValue :=
  let cs := s.toList
  match parseValue (2 * cs.length + 4) cs with
  | some (v, rest) => if (skipWs rest).isEmpty then some v else none
  | none => none

/-- Model of the regex match in the handler: the greedy pattern of an opening
brace, any characters, and a closing brace matches, starting at the first
opening brace, up to the last closing brace of the whole string, provided
that closing brace comes after the first opening brace. -/
def braceMatch (s : String) : Option String :=
  let cs := s.toList
  match cs.findIdx? (fun c => c = '\x7b'), cs.reverse.findIdx? (fun c => c = '\x7d') with
  | some i, some jr =>
    let j := cs.length - 1 - jr
    if i < j then some (String.mk ((cs.drop i).take (j - i + 1))) else none
  | _, _ => none

/-- JS truthiness of a JSON value (the handler tests the negation of the
parse result before sanitizing). -/
def jsTruthy : JsonValue → Bool
  | .null => false
  | .bool b => b
  | .num q => decide (q ≠ 0)
  | .str s => !s.isEmpty
  | .arr _ => true
  | .obj _ => true

/-- Decimal rendering of a JSON rational (every value JSON.parse produces has
a denominator dividing a power of ten, so the positional form below covers
all reachable inputs; the fallback branch is unreachable for such values, and
the exponent forms JS uses for very large or small magnitudes are not
modelled). -/
def jnumToString (q : ℚ) : String :=
  if q.den = 1 then toString q.num
  else
    match (List.range 65).find? (fun k => 10 ^ k % q.den = 0) with
    | some k =>
      let scaled : Nat := q.num.natAbs * 10 ^ k / q.den
      let ip := scaled / 10 ^ k
      let fp := scaled % 10 ^ k
      let fpStr := toString fp
      let fpPadded := String.mk (List.replicate (k - fpStr.length) '0') ++ fpStr
      (if q.num < 0 then "-" else "") ++ toString ip ++ "." ++ fpPadded
    | none => toString q.num ++ "/" ++ toString q.den

mutual

/-- Model of the builtin String() conversion on JSON values: null and
booleans print their keyword, numbers print in decimal, strings are
unchanged, arrays join their elements with commas (null printing empty inside
a join), objects print the generic object tag. -/
def jsString : JsonValue → String
  | .null => "null"
  | .bool b => if b then "true" else "false"
  | .num q => jnumToString q
  | .str s => s
  | .arr elems => String.intercalate "," (arrayElemStrings elems)
  | .obj _ => "[object Object]"

/-- Element strings of an array join: null elements contribute the empty
string, every other element its String() form. -/
def arrayElemStrings : List JsonValue → List String
  | [] => []
  | .null :: rest => "" :: arrayElemStrings rest
  | v :: rest => jsString v :: arrayElemStrings rest

end

/-- A JS number: NaN, a signed infinity, or a finite value (modelled exactly
as a rational). -/
inductive JSNum where
  | nan
  | inf (negative : Bool)
  | fin (q : ℚ)
deriving DecidableEq

/-- Model of the Number() builtin on a string: trim, empty gives zero,
otherwise an optionally signed Infinity or decimal literal that must consume
the whole string; anything else is NaN (the hexadecimal, octal and binary
literal forms are not modelled — no claim exercises them). -/
def strToNumber (s : String) : JSNum :=
  let t := ((s.toList.dropWhile jsWsChar).reverse.dropWhile jsWsChar).reverse
  if t.isEmpty then .fin 0
  else
    let signSplit : Bool × List Char :=
      match t with
      | '+' :: r => (false, r)
      | '-' :: r => (true, r)
      | _ => (false, t)
    let neg := signSplit.1
    let t1 := signSplit.2
    if t1 = "Infinity".toList then .inf neg
    else
      let ipRes := digitsAux t1 0 0
      let ip := ipRes.1
      let il := ipRes.2.1
      let t2 := ipRes.2.2
      let fracRes : Nat × Nat × List Char :=
        match t2 with
        | '.' :: r => digitsAux r 0 0
        | _ => (0, 0, t2)
      let dotted : Bool := match t2 with | '.' :: _ => true | _ => false
      let f := fracRes.1
      let fl := fracRes.2.1
      let t3 := if dotted then fracRes.2.2 else t2
      if il = 0 ∧ (!dotted || fl = 0) then .nan
      else
        let mant : ℚ := (if neg then -1 else 1) *
          (((ip : ℤ) * 10 ^ fl + (f : ℤ) : ℤ) : ℚ) * (10 : ℚ) ^ (-(fl : ℤ))
        match t3 with
        | [] => .fin mant
        | c :: r =>
          if c = 'e' ∨ c = 'E' then
            let signSplit2 : ℤ × List Char :=
              match r with
              | '+' :: r3 => (1, r3)
              | '-' :: r3 => (-1, r3)
              | _ => (1, r)
            let eRes := digitsAux signSplit2.2 0 0
            if eRes.2.1 = 0 ∨ ¬ eRes.2.2.isEmpty then .nan
            else .fin (mant * (10 : ℚ) ^ (signSplit2.1 * (eRes.1 : ℤ)))
          else .nan

/-- Model of the Number() coercion used on the score field: undefined gives
NaN, null gives zero, booleans their numeric value, numbers themselves;
strings, arrays and objects go through their string form (toPrimitive). -/
def toNumber : Option JsonValue → JSNum
  | none => .nan
  | some .null => .fin 0
  | some (.bool b) => .fin (if b then 1 else 0)
  | some (.num q) => .fin q
  | some (.str s) => strToNumber s
  | some (.arr elems) => strToNumber (jsString (.arr elems))
  | some (.obj fields) => strToNumber (jsString (.obj fields))

/-- Property access on the parse result (a plain JSON-derived value): only
objects carry the fields of the schema; with duplicate keys the last
occurrence wins, as in JS object construction. -/
def getField (v : JsonValue) (name : String) : Option JsonValue :=
  match v with
  | .obj fields => (fields.reverse.find? (fun p => p.1 = name)).map Prod.snd
  | _ => none

/-- The sanitizeArray helper of the handler: an array maps every element
through String() and drops falsy (empty) strings; any other value gives the
empty list. -/
def sanitizeArray (x : Option JsonValue) : List String :=
  match x with
  | some (.arr elems) => (elems.map jsString).filter (fun s => !s.isEmpty)
  | _ => []

/-- Model of Math.round: round half toward positive infinity. -/
def jsRound (q : ℚ) : ℤ := ⌊q + 1 / 2⌋

/-- Construction of the result Review from the parsed value: the three list
fields through sanitizeArray and slice(0, 10), the score through Number(),
the finiteness test, Math.round and the min/max clamp, defaulting to 0. -/
def sanitizeReview (parsed : JsonValue) : Review :=
  let scoreNum := toNumber (getField parsed "score")
  { strengths := (sanitizeArray (getField parsed "strengths")).take 10
    weaknesses := (sanitizeArray (getField parsed "weaknesses")).take 10
    suggestions := (sanitizeArray (getField parsed "suggestions")).take 10
    score :=
      match scoreNum with
      | .fin q => min 10 (max 1 (jsRound q))
      | _ => 0 }

/-- Outcome of the dual-attempt parse block: a truthy parse result, a falsy
or absent one (the handler then answers 502), or a SyntaxError thrown by the
second, unguarded JSON.parse call, which escapes to the outer catch. -/
inductive ParseOutcome where
  | parsed (v : JsonValue)
  | unparsed
  | raised (message : String)

/-- The dual-attempt parse of the handler: parse the whole content; on
failure, parse the brace-delimited substring if the regex matches (this
second parse is not guarded, so its failure raises); the final guard on the
negation of the result maps a missing or falsy value to the 502 outcome. The
raised message stands for the engine-specific SyntaxError text. -/
def parseStage (content : String) : ParseOutcome :=
  match parseJSON content with
  | some v => if jsTruthy v then .parsed v else .unparsed
  | none =>
    match braceMatch content with
    | some sub =>
      match parseJSON sub with
      | some v => if jsTruthy v then .parsed v else .unparsed
      | none => .raised "Unexpected token in JSON"
    | none => .unparsed

/-- The response of the route together with the prompt of the model call, if
one was issued (none when the handler returned before invoking the model). -/
structure Outcome where
  response : ApiResponse
  sentPrompt : Option String
deriving DecidableEq

/-- The fixed instruction template of buildPrompt up to the content slot. -/
def promptHeader : String :=
  "You are an expert career coach and recruiter. Analyze the following CV/resume content and produce a structured review.\n\n    Return strictly a JSON object with the following keys:\n    - strengths: string[] (3-7 concise bullet points)\n    - weaknesses: string[] (3-7 concise bullet points)\n    - suggestions: string[] (actionable improvements, 3-7 items)\n    - score: number (integer from 1 to 10)\n\n    CV:\n    \"\"\""

/-- The buildPrompt function of the source: the fixed template with the CV
text interpolated verbatim between triple quotes. -/
def buildPrompt (cv : String) : String :=
  promptHeader ++ cv ++ "\"\"\""

/-- The processFile function of the source: dispatch on the declared MIME
type; the PDF and DOCX branches wrap the extraction library, replacing a
thrown error with a fixed message; plain text decodes the bytes; any other
type throws the unsupported-type message. -/
def processFile (file : UploadedFile) : Except String String :=
  if file.mimeType = "application/pdf" then
    match file.libExtract with
    | .ok t => .ok t
    | .error _ => .error "Failed to extract text from PDF"
  else if file.mimeType = "application/vnd.openxmlformats-officedocument.wordprocessingml.document" then
    match file.libExtract with
    | .ok t => .ok t
    | .error _ => .error "Failed to extract text from DOCX"
  else if file.mimeType = "text/plain" then
    .ok file.utf8Content
  else
    .error "Unsupported file type. Please upload a PDF, DOCX, or text file."

/-- The model-call section of the handler: a thrown call reaches the outer
catch (500 with the error message, or the generic text when empty); a
returned completion has its content defaulted to an empty JSON object and
fed to the dual-attempt parse; a truthy parse result is sanitized into the
200 response, a falsy or missing one answers 502, and a raised second parse
reaches the outer catch as 500. -/
def invokePhase (prompt : String) : ModelOutcome → Outcome
  | .threw msg =>
    ⟨.err (if msg.isEmpty then "Unexpected server error" else msg) 500, some prompt⟩
  | .completion c =>
    let content := c.getD "\x7b\x7d"
    match parseStage content with
    | .parsed v => ⟨.ok (sanitizeReview v), some prompt⟩
    | .unparsed => ⟨.err "Failed to parse model response" 502, some prompt⟩
    | .raised msg =>
      ⟨.err (if msg.isEmpty then "Unexpected server error" else msg) 500, some prompt⟩

/-- The emptiness guard on the selected text: a blank cvText answers 400
before any model call; otherwise the prompt is built and the model invoked. -/
def afterText (cvText : String) (model : ModelOutcome) : Outcome :=
  if (jsTrim cvText).isEmpty then
    ⟨.err "No text content found to analyze" 400, none⟩
  else invokePhase (buildPrompt cvText) model

/-- The file section of the handler: with a file present, processFile decides
(a thrown extraction answers 400 with the error message, falling back to the
generic text when empty, and its text otherwise replaces cvText); with no
file, cvText is the text field coalesced with the empty string. -/
def filePhase : Option UploadedFile → String → ModelOutcome → Outcome
  | some f, _, model =>
    match processFile f with
    | .error msg => ⟨.err (if msg.isEmpty then "Error processing file" else msg) 400, none⟩
    | .ok extracted => afterText extracted model
  | none, cvText, model => afterText cvText model

/-- The POST handler of the route: reject when neither text nor file is
present (400), then reject when no API key is configured (500), then the
file section, emptiness guard and model call in order. -/
def POST (req : Request) (env : Env) (model : ModelOutcome) : Outcome :=
  if textFalsy req.text && req.file.isNone then
    ⟨.err "Either text or file must be provided" 400, none⟩
  else if env.keyFalsy then
    ⟨.err "OPENAI_API_KEY is not set on server" 500, none⟩
  else filePhase req.file (req.text.getD "") model


/-- Whatever the model outcome, an invocation records its prompt. -/
theorem invokePhase_sent (prompt : String) (model : ModelOutcome) :
    (invokePhase prompt model).sentPrompt = some prompt := by
  cases model with
  | threw msg => rfl
  | completion c =>
    simp only [invokePhase]
    split <;> rfl

/-- If the emptiness guard recorded a model call, the selected text was not
blank and the outcome is that of the invocation on its prompt. -/
theorem afterText_sent (cv : String) (model : ModelOutcome)
    (h : (afterText cv model).sentPrompt.isSome = true) :
    (jsTrim cv).isEmpty = false ∧ afterText cv model = invokePhase (buildPrompt cv) model := by
  by_cases hc : (jsTrim cv).isEmpty = true
  · rw [afterText, if_pos hc] at h
    simp at h
  · refine ⟨by simpa using hc, ?_⟩
    rw [afterText, if_neg hc]

/-- If the handler recorded a model call, some non-blank text was selected
and the outcome is that of the invocation on its prompt. -/
theorem post_sent (req : Request) (env : Env) (model : ModelOutcome)
    (h : (POST req env model).sentPrompt.isSome = true) :
    ∃ cv, (jsTrim cv).isEmpty = false ∧
      POST req env model = invokePhase (buildPrompt cv) model := by
  by_cases h1 : (textFalsy req.text && req.file.isNone) = true
  · rw [POST, if_pos h1] at h
    simp at h
  · by_cases h2 : env.keyFalsy = true
    · rw [POST, if_neg h1, if_pos h2] at h
      simp at h
    · have hP : POST req env model = filePhase req.file (req.text.getD "") model := by
        rw [POST, if_neg h1, if_neg h2]
      rw [hP] at h ⊢
      cases hf : req.file with
      | none =>
        rw [hf] at h
        simp only [filePhase] at h ⊢
        obtain ⟨hne, heq⟩ := afterText_sent _ _ h
        exact ⟨_, hne, heq⟩
      | some f =>
        rw [hf] at h
        simp only [filePhase] at h ⊢
        cases hp : processFile f with
        | error msg =>
          rw [hp] at h
          exact (Bool.false_ne_true h).elim
        | ok e =>
          rw [hp] at h
          obtain ⟨hne, heq⟩ := afterText_sent _ _ h
          exact ⟨e, hne, heq⟩

/-- C1 (counterexample): with a configured key, text present, and model
content on which both the whole-string parse and the brace-substring parse
fail (the substring exists), the request answers 500 — the second JSON.parse
call is not guarded, so its SyntaxError escapes to the outer catch — and not
the 502 the claim requires for every doubly-unparseable response. -/
theorem C1_counterexample :
    (POST ⟨some "cv", none⟩ ⟨some "key"⟩ (.completion (some "\x7bx\x7d"))).response.status = 500 ∧
    (POST ⟨some "cv", none⟩ ⟨some "key"⟩ (.completion (some "\x7bx\x7d"))).response.status ≠ 502 := by
  decide

/-- C1 (amended): for a model call that happened and returned content on
which the whole-string parse fails and any brace-delimited substring also
fails to parse, the request answers 502 (ParseFailure) when no such
substring exists, and 500 when one exists, because the second, unguarded
JSON.parse throws and the outer handler converts the fault; in both cases
the failure is a handled HTTP error, never an unhandled fault. -/
theorem C1_both_parses_fail (req : Request) (env : Env) (content : String)
    (hcall : (POST req env (.completion (some content))).sentPrompt.isSome = true)
    (hwhole : parseJSON content = none)
    (hsub : ∀ sub, braceMatch content = some sub → parseJSON sub = none) :
    (POST req env (.completion (some content))).response.status =
      match braceMatch content with
      | none => 502
      | some _ => 500 := by
  obtain ⟨cv, hne, heq⟩ := post_sent _ _ _ hcall
  rw [heq]
  simp only [invokePhase, Option.getD_some]
  cases hb : braceMatch content with
  | none => simp [parseStage, hwhole, hb, ApiResponse.status]
  | some sub => simp [parseStage, hwhole, hb, hsub sub hb, ApiResponse.status]

/-- C1 (amended) witness at content consisting of braces around a
non-JSON body. -/
theorem C1_both_parses_fail_witness :
    (POST ⟨some "cv", none⟩ ⟨some "key"⟩ (.completion (some "\x7bx\x7d"))).response.status =
      match braceMatch "\x7bx\x7d" with
      | none => 502
      | some _ => 500 :=
  C1_both_parses_fail ⟨some "cv", none⟩ ⟨some "key"⟩ "\x7bx\x7d" (by decide) (by rfl)
    (fun sub h => by
      rw [show braceMatch "\x7bx\x7d" = some "\x7bx\x7d" from rfl, Option.some.injEq] at h
      rw [← h]
      rfl)

/-- C2 (counterexample): a completion with no content does not fail the
request: the handler defaults the content to an empty JSON object literal
and answers 200 with the fully degraded Review. -/
theorem C2_counterexample :
    (POST ⟨some "cv", none⟩ ⟨some "key"⟩ (.completion none)).response = .ok ⟨[], [], [], 0⟩ ∧
    (POST ⟨some "cv", none⟩ ⟨some "key"⟩ (.completion none)).response.status = 200 := by
  decide

/-- C2 (amended): for a model call that happened, a call that errors or
times out surfaces as a terminal 500 error with no retry; a completion with
no content is instead replaced by an empty JSON object literal and produces
a 200 response carrying the fully degraded Review (all lists empty,
score 0). -/
theorem C2_upstream (req : Request) (env : Env) (msg : String) :
    ((POST req env (.threw msg)).sentPrompt.isSome = true →
      (POST req env (.threw msg)).response.status = 500) ∧
    ((POST req env (.completion none)).sentPrompt.isSome = true →
      (POST req env (.completion none)).response = .ok ⟨[], [], [], 0⟩) := by
  constructor
  · intro h
    obtain ⟨cv, hne, heq⟩ := post_sent _ _ _ h
    rw [heq]
    rfl
  · intro h
    obtain ⟨cv, hne, heq⟩ := post_sent _ _ _ h
    rw [heq]
    rfl

/-- C2 (amended) witness on a throwing call and on an empty completion. -/
theorem C2_upstream_witness :
    (POST ⟨some "cv", none⟩ ⟨some "key"⟩ (.threw "connection error")).response.status = 500 ∧
    (POST ⟨some "cv", none⟩ ⟨some "key"⟩ (.completion none)).response = .ok ⟨[], [], [], 0⟩ :=
  ⟨(C2_upstream ⟨some "cv", none⟩ ⟨some "key"⟩ "connection error").1 (by decide),
   (C2_upstream ⟨some "cv", none⟩ ⟨some "key"⟩ "connection error").2 (by decide)⟩

/-- C3: for each of the three list fields, an array value has every element
converted to its string form with the empty (falsy) strings dropped and the
result truncated to at most ten entries; a missing or non-array value gives
the empty list; and on the concrete raw response of the claim the request
succeeds with strengths ["a"], weaknesses [], suggestions ["b", "b"]. -/
theorem C3_list_sanitization :
    (∀ (parsed : JsonValue) (elems : List JsonValue),
        getField parsed "strengths" = some (.arr elems) →
        (sanitizeReview parsed).strengths =
          ((elems.map jsString).filter (fun s => !s.isEmpty)).take 10) ∧
    (∀ (parsed : JsonValue) (elems : List JsonValue),
        getField parsed "weaknesses" = some (.arr elems) →
        (sanitizeReview parsed).weaknesses =
          ((elems.map jsString).filter (fun s => !s.isEmpty)).take 10) ∧
    (∀ (parsed : JsonValue) (elems : List JsonValue),
        getField parsed "suggestions" = some (.arr elems) →
        (sanitizeReview parsed).suggestions =
          ((elems.map jsString).filter (fun s => !s.isEmpty)).take 10) ∧
    (∀ parsed : JsonValue,
        (∀ elems, getField parsed "strengths" ≠ some (.arr elems)) →
        (sanitizeReview parsed).strengths = []) ∧
    (POST ⟨some "cv", none⟩ ⟨some "key"⟩ (.completion (some
        "Here is the result:\n\x7b\"strengths\":[\"a\"],\"weaknesses\":[],\"suggestions\":[\"b\",\"b\",\"\"],\"score\":15\x7d"))).response
      = .ok ⟨["a"], [], ["b", "b"], 10⟩ := by
  refine ⟨?_, ?_, ?_, ?_, by with_unfolding_all decide⟩
  · intro parsed elems h
    simp [sanitizeReview, h, sanitizeArray]
  · intro parsed elems h
    simp [sanitizeReview, h, sanitizeArray]
  · intro parsed elems h
    simp [sanitizeReview, h, sanitizeArray]
  · intro parsed h
    cases hg : getField parsed "strengths" with
    | none => simp [sanitizeReview, sanitizeArray, hg]
    | some v =>
      cases v with
      | arr elems => exact absurd hg (h elems)
      | null => simp [sanitizeReview, sanitizeArray, hg]
      | bool b => simp [sanitizeReview, sanitizeArray, hg]
      | num q => simp [sanitizeReview, sanitizeArray, hg]
      | str s => simp [sanitizeReview, sanitizeArray, hg]
      | obj fields => simp [sanitizeReview, sanitizeArray, hg]

/-- C3 witness at a concrete array field and a concrete non-array field. -/
theorem C3_list_sanitization_witness :
    (sanitizeReview (.obj [("strengths", .arr [.str "a", .str ""])])).strengths =
      ((([JsonValue.str "a", JsonValue.str ""]).map jsString).filter (fun s => !s.isEmpty)).take 10 ∧
    (sanitizeReview (.num 3)).strengths = [] :=
  ⟨C3_list_sanitization.1 _ _ rfl,
   C3_list_sanitization.2.2.2.1 _ (fun _elems h => Option.noConfusion h)⟩

/-- The rounding of the handler lands on a nearest integer: it differs from
its argument by at most one half. -/
theorem jsRound_near (q : ℚ) : |q - (jsRound q : ℚ)| ≤ 1 / 2 := by
  have h1 := Int.floor_le (q + 1 / 2)
  have h2 := Int.lt_floor_add_one (q + 1 / 2)
  rw [abs_le, jsRound]
  constructor <;> linarith

/-- C4: the sanitized score is 0 when the coerced score number is not
finite, and otherwise the rounded value clamped into [1, 10]; consequently
the score always lies in \x7b0\x7d ∪ [1, 10] (and is an integer by type);
and the rounding is to a nearest integer. -/
theorem C4_score (parsed : JsonValue) :
    ((sanitizeReview parsed).score =
      match toNumber (getField parsed "score") with
      | .fin q => min 10 (max 1 (jsRound q))
      | _ => 0) ∧
    ((sanitizeReview parsed).score = 0 ∨
      (1 ≤ (sanitizeReview parsed).score ∧ (sanitizeReview parsed).score ≤ 10)) ∧
    (∀ q : ℚ, |q - (jsRound q : ℚ)| ≤ 1 / 2) := by
  refine ⟨rfl, ?_, jsRound_near⟩
  cases hn : toNumber (getField parsed "score") with
  | fin q =>
    right
    simp only [sanitizeReview, hn]
    exact ⟨le_min (by norm_num) (le_max_left 1 _), min_le_left _ _⟩
  | nan =>
    left
    simp [sanitizeReview, hn]
  | inf b =>
    left
    simp [sanitizeReview, hn]

/-- C5 (counterexample): a request carrying only a file with an unsupported
declared MIME type, under an environment with no configured key, answers
500, not the 400 the claim requires for every such request. -/
theorem C5_counterexample :
    (POST ⟨none, some ⟨"image/png", .ok "x", "x"⟩⟩ ⟨none⟩ (.completion none)).response.status = 500 ∧
    (POST ⟨none, some ⟨"image/png", .ok "x", "x"⟩⟩ ⟨none⟩ (.completion none)).response.status ≠ 400 := by
  decide

/-- C5 (amended): a request with neither text nor file answers 400 with no
model call regardless of configuration; an unsupported declared MIME type
makes extraction fail; and provided an API key is configured, a failing
extraction or blank selected content answers 400 with no model call (without
a configured key such requests answer 500 first). -/
theorem C5_input_rejection (req : Request) (env : Env) (model : ModelOutcome) :
    ((textFalsy req.text && req.file.isNone) = true →
      (POST req env model).response.status = 400 ∧ (POST req env model).sentPrompt = none) ∧
    (∀ f : UploadedFile, f.mimeType ≠ "application/pdf" →
      f.mimeType ≠ "application/vnd.openxmlformats-officedocument.wordprocessingml.document" →
      f.mimeType ≠ "text/plain" →
      processFile f = .error "Unsupported file type. Please upload a PDF, DOCX, or text file.") ∧
    (env.keyFalsy = false →
      (∀ f msg, req.file = some f → processFile f = .error msg →
        (POST req env model).response.status = 400 ∧ (POST req env model).sentPrompt = none) ∧
      (∀ f e, req.file = some f → processFile f = .ok e → (jsTrim e).isEmpty = true →
        (POST req env model).response.status = 400 ∧ (POST req env model).sentPrompt = none) ∧
      (req.file = none → (jsTrim (req.text.getD "")).isEmpty = true →
        (POST req env model).response.status = 400 ∧ (POST req env model).sentPrompt = none)) := by
  refine ⟨?_, ?_, ?_⟩
  · intro h1
    rw [POST, if_pos h1]
    exact ⟨rfl, rfl⟩
  · intro f h1 h2 h3
    rw [processFile, if_neg h1, if_neg h2, if_neg h3]
  · intro hk
    refine ⟨?_, ?_, ?_⟩
    · intro f msg hf hp
      have hcond : ¬ (textFalsy req.text && req.file.isNone) = true := by
        rw [hf]
        simp
      rw [POST, if_neg hcond, if_neg (by simp [hk]), hf]
      simp only [filePhase]
      rw [hp]
      exact ⟨rfl, rfl⟩
    · intro f e hf hp htr
      have hcond : ¬ (textFalsy req.text && req.file.isNone) = true := by
        rw [hf]
        simp
      rw [POST, if_neg hcond, if_neg (by simp [hk]), hf]
      simp only [filePhase]
      rw [hp]
      show (afterText e model).response.status = 400 ∧ (afterText e model).sentPrompt = none
      unfold afterText
      rw [if_pos htr]
      exact ⟨rfl, rfl⟩
    · intro hf htr
      by_cases h1 : (textFalsy req.text && req.file.isNone) = true
      · rw [POST, if_pos h1]
        exact ⟨rfl, rfl⟩
      · rw [POST, if_neg h1, if_neg (by simp [hk]), hf]
        simp only [filePhase]
        unfold afterText
        rw [if_pos htr]
        exact ⟨rfl, rfl⟩

/-- C5 (amended) witness: an unsupported MIME type with a configured key
answers 400 with no model call. -/
theorem C5_input_rejection_witness :
    (POST ⟨none, some ⟨"image/png", .ok "x", "x"⟩⟩ ⟨some "k"⟩ (.completion none)).response.status = 400 ∧
    (POST ⟨none, some ⟨"image/png", .ok "x", "x"⟩⟩ ⟨some "k"⟩ (.completion none)).sentPrompt = none :=
  ((C5_input_rejection ⟨none, some ⟨"image/png", .ok "x", "x"⟩⟩ ⟨some "k"⟩ (.completion none)).2.2
    (by decide)).1 ⟨"image/png", .ok "x", "x"⟩
    "Unsupported file type. Please upload a PDF, DOCX, or text file." rfl rfl

/-- C6: with a file present the raw text field has no influence on the
outcome (the whole outcome is identical for every value of the text field),
and when the key is configured, extraction succeeds and yields non-blank
text, the prompt sent to the model is built from the extracted text. -/
theorem C6_file_precedence (t1 t2 : Option String) (f : UploadedFile) (env : Env)
    (model : ModelOutcome) :
    POST ⟨t1, some f⟩ env model = POST ⟨t2, some f⟩ env model ∧
    (env.keyFalsy = false → ∀ e, processFile f = .ok e → (jsTrim e).isEmpty = false →
      (POST ⟨t1, some f⟩ env model).sentPrompt = some (buildPrompt e)) := by
  constructor
  · simp only [POST, Option.isNone_some, Bool.and_false, Bool.false_eq_true, if_false]
    by_cases hk : env.keyFalsy = true
    · rw [if_pos hk, if_pos hk]
    · rw [if_neg hk, if_neg hk]
      simp only [filePhase]
  · intro hk e hp htr
    simp only [POST, Option.isNone_some, Bool.and_false, Bool.false_eq_true, if_false]
    rw [if_neg (by simp [hk])]
    simp only [filePhase]
    rw [hp]
    show (afterText e model).sentPrompt = some (buildPrompt e)
    unfold afterText
    rw [if_neg (by simp [htr])]
    exact invokePhase_sent _ _

/-- C6 witness: two different text fields with the same plain-text file give
the same outcome, and the prompt is built from the file's text. -/
theorem C6_file_precedence_witness :
    POST ⟨some "pasted text", some ⟨"text/plain", .ok "hello", "hello"⟩⟩ ⟨some "k"⟩ (.completion none) =
      POST ⟨some "other text", some ⟨"text/plain", .ok "hello", "hello"⟩⟩ ⟨some "k"⟩ (.completion none) ∧
    (POST ⟨some "pasted text", some ⟨"text/plain", .ok "hello", "hello"⟩⟩ ⟨some "k"⟩
        (.completion none)).sentPrompt = some (buildPrompt "hello") :=
  ⟨(C6_file_precedence (some "pasted text") (some "other text") ⟨"text/plain", .ok "hello", "hello"⟩
      ⟨some "k"⟩ (.completion none)).1,
   (C6_file_precedence (some "pasted text") (some "other text") ⟨"text/plain", .ok "hello", "hello"⟩
      ⟨some "k"⟩ (.completion none)).2 rfl "hello" rfl (by decide)⟩

/-- Sanitizing an array of at most ten non-empty strings returns it
unchanged. -/
theorem sanitizeArray_wellformed (l : List String)
    (hl : ∀ s, s ∈ l → s.isEmpty = false) (hlen : l.length ≤ 10) :
    (sanitizeArray (some (.arr (l.map .str)))).take 10 = l := by
  simp only [sanitizeArray, List.map_map]
  have hmap : l.map (jsString ∘ JsonValue.str) = l := by
    rw [show jsString ∘ JsonValue.str = id from funext (fun s => rfl), List.map_id]
  rw [hmap]
  have hfilter : l.filter (fun s => !s.isEmpty) = l := by
    rw [List.filter_eq_self]
    intro a ha
    rw [hl a ha]
    rfl
  rw [hfilter]
  exact List.take_of_length_le hlen

/-- Rounding an integer score is the identity. -/
theorem jsRound_intCast (sc : ℤ) : jsRound (sc : ℚ) = sc := by
  rw [jsRound, Int.floor_int_add]
  norm_num

/-- C7: sanitization is the identity on a parsed value already matching the
Review schema: three list fields holding at most ten non-empty strings each
and an integer score in [1, 10] come back unchanged. -/
theorem C7_idempotent (parsed : JsonValue) (strs wks sgs : List String) (sc : ℤ)
    (hs : getField parsed "strengths" = some (.arr (strs.map .str)))
    (hw : getField parsed "weaknesses" = some (.arr (wks.map .str)))
    (hg : getField parsed "suggestions" = some (.arr (sgs.map .str)))
    (hsc : getField parsed "score" = some (.num (sc : ℚ)))
    (hne : ∀ s, s ∈ strs ++ wks ++ sgs → s.isEmpty = false)
    (hl1 : strs.length ≤ 10) (hl2 : wks.length ≤ 10) (hl3 : sgs.length ≤ 10)
    (hlo : 1 ≤ sc) (hhi : sc ≤ 10) :
    sanitizeReview parsed = ⟨strs, wks, sgs, sc⟩ := by
  have h1 : ∀ s, s ∈ strs → s.isEmpty = false := by
    intro s hsmem
    exact hne s (by simp [hsmem])
  have h2 : ∀ s, s ∈ wks → s.isEmpty = false := by
    intro s hsmem
    exact hne s (by simp [hsmem])
  have h3 : ∀ s, s ∈ sgs → s.isEmpty = false := by
    intro s hsmem
    exact hne s (by simp [hsmem])
  simp only [sanitizeReview, hs, hw, hg, hsc]
  rw [sanitizeArray_wellformed strs h1 hl1, sanitizeArray_wellformed wks h2 hl2,
    sanitizeArray_wellformed sgs h3 hl3]
  simp only [toNumber, jsRound_intCast]
  rw [max_eq_right hlo, min_eq_right hhi]

/-- C7 witness at a concrete well-formed Review object. -/
theorem C7_idempotent_witness :
    sanitizeReview (.obj [("strengths", .arr [.str "clear"]),
        ("weaknesses", .arr [.str "short"]),
        ("suggestions", .arr [.str "add metrics"]),
        ("score", .num ((7 : ℤ) : ℚ))]) =
      ⟨["clear"], ["short"], ["add metrics"], 7⟩ :=
  C7_idempotent _ ["clear"] ["short"] ["add metrics"] 7 rfl rfl rfl rfl
    (by decide) (by decide) (by decide) (by decide) (by decide) (by decide)

/-- C8: buildPrompt is a pure total Lean function; it is deterministic
(equal inputs give equal prompts) and the produced prompt contains the CV
text verbatim: the character list of the input is an infix of the character
list of the prompt. -/
theorem C8_buildPrompt (cv : String) :
    (∀ cv2, cv = cv2 → buildPrompt cv = buildPrompt cv2) ∧
    cv.toList <:+: (buildPrompt cv).toList := by
  refine ⟨fun cv2 h => by rw [h], ?_⟩
  exact ⟨promptHeader.toList, "\"\"\"".toList, rfl⟩

/-- C8 witness at a concrete CV text. -/
theorem C8_buildPrompt_witness :
    buildPrompt "my cv text" = buildPrompt "my cv text" ∧
    ("my cv text").toList <:+: (buildPrompt "my cv text").toList :=
  ⟨(C8_buildPrompt "my cv text").1 "my cv text" rfl, (C8_buildPrompt "my cv text").2⟩

/-- Property access on a non-object parse result finds nothing. -/
theorem getField_nonobject (v : JsonValue) (name : String)
    (h : ∀ fields, v ≠ .obj fields) : getField v name = none := by
  cases v with
  | obj fields => exact absurd rfl (h fields)
  | null => rfl
  | bool b => rfl
  | num q => rfl
  | str s => rfl
  | arr elems => rfl

/-- C9: a model content string that parses to a truthy non-object value is
not rejected as a parse failure: the request answers 200 with the fully
degraded Review (all lists empty, score 0), because the parse result is
only checked for truthiness. -/
theorem C9_truthy_nonobject (req : Request) (env : Env) (content : String) (v : JsonValue)
    (hp : parseJSON content = some v)
    (ht : jsTruthy v = true)
    (hno : ∀ fields, v ≠ .obj fields)
    (hcall : (POST req env (.completion (some content))).sentPrompt.isSome = true) :
    (POST req env (.completion (some content))).response = .ok ⟨[], [], [], 0⟩ ∧
    (POST req env (.completion (some content))).response.status = 200 := by
  obtain ⟨cv, hne, heq⟩ := post_sent _ _ _ hcall
  have hsan : sanitizeReview v = ⟨[], [], [], 0⟩ := by
    simp [sanitizeReview, sanitizeArray, toNumber, getField_nonobject v _ hno]
  have hr : (POST req env (.completion (some content))).response = .ok ⟨[], [], [], 0⟩ := by
    rw [heq]
    simp only [invokePhase, Option.getD_some]
    rw [show parseStage content = .parsed v by simp [parseStage, hp, ht]]
    show ApiResponse.ok (sanitizeReview v) = ApiResponse.ok ⟨[], [], [], 0⟩
    rw [hsan]
  exact ⟨hr, by rw [hr]; rfl⟩

/-- C9 witness at the content "3" (a truthy numeric JSON value). -/
theorem C9_truthy_nonobject_witness :
    (POST ⟨some "cv", none⟩ ⟨some "key"⟩ (.completion (some "3"))).response =
      .ok ⟨[], [], [], 0⟩ ∧
    (POST ⟨some "cv", none⟩ ⟨some "key"⟩ (.completion (some "3"))).response.status = 200 :=
  C9_truthy_nonobject ⟨some "cv", none⟩ ⟨some "key"⟩ "3" (.num 3)
    (by with_unfolding_all rfl) (by with_unfolding_all decide)
    (fun fields h => JsonValue.noConfusion h) (by with_unfolding_all decide)

/-- C10: the credentials check precedes input normalization: any request
carrying some text or a file, in an environment with no configured key,
answers 500 with no model call, whatever the file's type or validity. -/
theorem C10_key_before_normalization (req : Request) (env : Env) (model : ModelOutcome)
    (hc : (textFalsy req.text && req.file.isNone) = false)
    (hk : env.keyFalsy = true) :
    (POST req env model).response = .err "OPENAI_API_KEY is not set on server" 500 ∧
    (POST req env model).sentPrompt = none := by
  rw [POST, if_neg (by simp [hc]), if_pos hk]
  exact ⟨rfl, rfl⟩

/-- C10 witness: an unsupported file type with no configured key answers
500, not 400. -/
theorem C10_key_before_normalization_witness :
    (POST ⟨none, some ⟨"image/png", .ok "data", "data"⟩⟩ ⟨none⟩ (.completion none)).response =
      .err "OPENAI_API_KEY is not set on server" 500 ∧
    (POST ⟨none, some ⟨"image/png", .ok "data", "data"⟩⟩ ⟨none⟩ (.completion none)).sentPrompt = none :=
  C10_key_before_normalization ⟨none, some ⟨"image/png", .ok "data", "data"⟩⟩ ⟨none⟩
    (.completion none) (by decide) (by decide)

end CVSC
